import Mathlib

/-!
Verification development for the nightfall_3 ledger-state core.

The definitions below are a shallow embedding of:
  - the block proposal and proposer bookkeeping logic of
    nightfall-deployer/contracts/State.sol (namespace StateContract);
  - the optimist transaction admission handler (checkAlreadyInBlock and
    submitTransaction) and the offchain-transaction route
    (namespace Optimist);
  - the Transaction class of common-files/classes/transaction.mjs
    (namespace TxClass);
  - the withdraw transaction-building flow together with a commitment
    store modelled from the specification, since commitment-storage.mjs
    is not part of the sampled sources (namespace ClientWithdraw).

Cryptographic digests (keccak over various encodings) are kept abstract:
every definition takes the digest functions as explicit arguments, so the
theorems hold for every choice of digest and concrete witnesses
instantiate them with small computable stand-ins.
-/

set_option linter.unusedVariables false

/-- Boolean success test for an Except value. -/
def isOkE {ε α : Type} : Except ε α → Bool
  | .ok _ => true
  | .error _ => false

namespace StateContract

/-- One entry of the on-chain blockHashes array (struct BlockData in
State.sol): the block digest plus the L1 timestamp. -/
structure BlockData where
  blockHash : Nat
  time : Nat
  deriving DecidableEq, Repr

/-- Modelled from the spec: struct Transaction (Structures.sol) is not under
the sampled sources.  State.sol reads the fee (slot 1) and the
transactionType (slot 2) of each transaction and hashes the full fixed-size
slot array; the remaining slots are kept as an opaque payload. -/
structure SolTx where
  value : Nat
  fee : Nat
  transactionType : Nat
  payload : List Nat
  deriving DecidableEq, Repr

/-- Modelled from the spec: struct Block (Structures.sol) is not under the
sampled sources.  The spec lists the block metadata (proposer identity,
commitment-accumulator root, leaf count, L2 block number, previous block
hash) plus the transactions-hash-tree root; State.sol reads blockNumberL2,
previousBlockHash, proposer and reads the transactionHashesRoot as the last
slot of the block structure. -/
structure SolBlock where
  leafCount : Nat
  proposer : Nat
  root : Nat
  blockNumberL2 : Nat
  previousBlockHash : Nat
  transactionHashesRoot : Nat
  deriving DecidableEq, Repr

/-- Environment of the State contract call: configuration constants
(Config.sol is not under the sampled sources, so they stay abstract) and
the abstract keccak digests used by proposeBlock. -/
structure SolEnv where
  BLOCK_STAKE : Nat
  TRANSACTIONS_PER_BLOCK : Nat
  HT : SolTx → Nat
  HB : SolBlock → Nat
  H2 : Nat → Nat → Nat
  escrowed : Nat → Bool
  HFee : Nat → Nat → Nat

/-- Mutable contract state touched by proposeBlock: the blockHashes array
and the feeBook writes (modelled as a write log). -/
structure ChainState where
  blockHashes : List BlockData
  feeBook : List (Nat × (Nat × Nat))
  deriving DecidableEq, Repr

/-- The Yul helper getTreeHeight of State.sol, with explicit fuel: height
starts at 1 and is incremented while 2 ^ height < leaves. -/
def getTreeHeightFrom (leaves : Nat) : Nat → Nat → Nat
  | 0, h => h
  | fuel + 1, h => if 2 ^ h < leaves then getTreeHeightFrom leaves fuel (h + 1) else h

/-- Height of the transactions-hash tree (the loop terminates after at most
leaves iterations because 2 ^ (1 + leaves) > leaves). -/
def getTreeHeight (leaves : Nat) : Nat :=
  getTreeHeightFrom leaves leaves 1

/-- One level of the in-place transactions-hash-tree loop of proposeBlock:
each adjacent pair is combined, and a pair of two zero words is written as
the zero constant directly instead of being hashed. -/
def levelUp (H2 : Nat → Nat → Nat) : List Nat → List Nat
  | a :: b :: rest => (if a = 0 ∧ b = 0 then 0 else H2 a b) :: levelUp H2 rest
  | other => other

/-- Leaf slots of the transactions-hash tree: the transaction digests
followed by zero padding up to 2 ^ getTreeHeight. -/
def txLeaves (HT : SolTx → Nat) (t : List SolTx) : List Nat :=
  t.map HT ++ List.replicate (2 ^ getTreeHeight t.length - t.length) 0

/-- Root of the transactions-hash tree as computed inside proposeBlock:
getTreeHeight rounds of pairwise combination over the padded leaf array,
then the word at position zero. -/
def calcTransactionsRoot (H2 : Nat → Nat → Nat) (HT : SolTx → Nat) (t : List SolTx) : Nat :=
  ((levelUp H2)^[getTreeHeight t.length] (txLeaves HT t)).headD 0

/-- Default array element standing for an absent BlockData entry. -/
def bdDefault : BlockData := ⟨0, 0⟩

/-- Default element standing for an absent block. -/
def sbDefault : SolBlock := ⟨0, 0, 0, 0, 0, 0⟩

/-- blockHashes[blockHashes.length - 1].blockHash, the digest the contract
compares previousBlockHash against. -/
def lastStoredHash (l : List BlockData) : Nat :=
  (l.getD (l.length - 1) bdDefault).blockHash

/-- The fee accumulation loop of proposeBlock: deposit fees are summed in
ETH, the rest in MATIC. -/
def feePayments (t : List SolTx) : Nat × Nat :=
  t.foldl
    (fun p tx => if tx.transactionType = 0 then (p.1 + tx.fee, p.2) else (p.1, p.2 + tx.fee))
    (0, 0)

/-- The proposeBlock entry point of State.sol.  The sequence of require
checks, the escrow check for deposit-type transactions, the recomputation
of the transactions-hash-tree root and the final push of the block digest
follow the source; a revert anywhere leaves the state unchanged, which the
Except error models. -/
def proposeBlock (env : SolEnv) (currentProposerAddr : Nat) (st : ChainState)
    (sender msgValue time : Nat) (b : SolBlock) (t : List SolTx) :
    Except String ChainState :=
  if sender ≠ currentProposerAddr then
    .error "Only the current proposer can call this."
  else if b.blockNumberL2 ≠ st.blockHashes.length then
    .error "The block is out of order"
  else if st.blockHashes ≠ [] ∧ b.previousBlockHash ≠ lastStoredHash st.blockHashes then
    .error "The block is flawed or out of order"
  else if msgValue < env.BLOCK_STAKE then
    .error "The stake payment is incorrect"
  else if b.proposer ≠ sender then
    .error "The proposer address is not the sender"
  else if env.TRANSACTIONS_PER_BLOCK < t.length then
    .error "The block has too many transactions"
  else if t.any (fun tx => tx.transactionType == 0 && !env.escrowed (env.HT tx)) then
    .error "deposit funds not escrowed"
  else if b.transactionHashesRoot ≠ calcTransactionsRoot env.H2 env.HT t then
    .error "transaction hashes root mismatch"
  else
    .ok
      { blockHashes := st.blockHashes ++ [⟨env.HB b, time⟩]
        feeBook := st.feeBook ++ [(env.HFee b.proposer b.blockNumberL2, feePayments t)] }

/-- Hash-chain invariant over the sequence of accepted blocks: block i
carries L2 number i and, past the first block, its previousBlockHash is the
digest of the preceding accepted block. -/
def chainLinked (HB : SolBlock → Nat) (accepted : List SolBlock) : Prop :=
  ∀ i, i < accepted.length →
    (accepted.getD i sbDefault).blockNumberL2 = i ∧
    (0 < i →
      (accepted.getD i sbDefault).previousBlockHash = HB (accepted.getD (i - 1) sbDefault))

/-- Correspondence between the stored blockHashes array and the sequence of
accepted blocks: equal length and entrywise equal digests. -/
def hashesMatch (HB : SolBlock → Nat) (l : List BlockData) (accepted : List SolBlock) : Prop :=
  l.length = accepted.length ∧
  ∀ i, i < l.length → (l.getD i bdDefault).blockHash = HB (accepted.getD i sbDefault)

/-- The removeProposer state (the parts of State.sol it touches). -/
structure LinkedAddress where
  thisAddress : Nat
  previousAddress : Nat
  nextAddress : Nat
  url : String
  deriving DecidableEq, Repr

/-- The all-zero record a deleted mapping entry reads back as. -/
def zeroLinked : LinkedAddress := ⟨0, 0, 0, ""⟩

/-- Proposer-rotation state of State.sol. -/
structure ProposerState where
  proposers : Nat → LinkedAddress
  currentProposer : LinkedAddress
  proposerStartBlock : Nat

/-- Pointwise update of the proposers mapping. -/
def updateMap (f : Nat → LinkedAddress) (k : Nat) (v : LinkedAddress) : Nat → LinkedAddress :=
  fun x => if x = k then v else f x

/-- The removeProposer function of State.sol: reads the neighbours, deletes
the record, rewires the neighbours using the stored thisAddress fields, and
unconditionally makes the next record the current proposer.  The
onlyRegistered modifier is modelled by the authorized flag. -/
def removeProposer (authorized : Bool) (blockNumber : Nat) (st : ProposerState)
    (proposer : Nat) : Except String ProposerState :=
  if !authorized then
    .error "This address is not authorised to call this function"
  else
    let previousAddress := (st.proposers proposer).previousAddress
    let nextAddress := (st.proposers proposer).nextAddress
    let p1 := updateMap st.proposers proposer zeroLinked
    let p2 := updateMap p1 previousAddress
      { p1 previousAddress with nextAddress := (p1 nextAddress).thisAddress }
    let p3 := updateMap p2 nextAddress
      { p2 nextAddress with previousAddress := (p2 previousAddress).thisAddress }
    .ok { proposers := p3, currentProposer := p3 nextAddress, proposerStartBlock := blockNumber }

end StateContract

namespace Optimist

/-- A JavaScript value as far as truthiness of the stored blockNumber field
is concerned: absent, a number, or a string (the handler stores the string
value offchain there for offchain transactions). -/
inductive JsVal where
  | undef : JsVal
  | num : Nat → JsVal
  | str : String → JsVal
  deriving DecidableEq, Repr

/-- JavaScript truthiness of such a value. -/
def jsTruthy : JsVal → Bool
  | .undef => false
  | .num n => n != 0
  | .str s => s != ""

/-- An incoming transaction as seen by the handler: its hash, its mempool
flag, and the remaining fields as an opaque payload. -/
structure IncomingTx where
  transactionHash : Nat
  mempool : Bool
  payload : Nat
  deriving DecidableEq, Repr

/-- The stored transaction record, of which the handler reads only the
blockNumber field. -/
structure StoredTx where
  blockNumber : JsVal
  deriving DecidableEq, Repr

/-- The database collaborators of the handler: getBlockByTransactionHash
(some L2 block number when the transaction is in a stored block) and
getTransactionByTransactionHash. -/
structure OptimistDb where
  blockOfTx : Nat → Option Nat
  storedTx : Nat → Option StoredTx

/-- A TransactionError: message plus numeric code. -/
structure TransactionErr where
  msg : String
  code : Nat
  deriving DecidableEq, Repr

/-- The optional-chaining read storedTransaction?.blockNumber. -/
def storedBlockNumber (db : OptimistDb) (h : Nat) : JsVal :=
  match db.storedTx h with
  | none => .undef
  | some s => s.blockNumber

/-- checkAlreadyInBlock of the transaction handler: unknown transactions
pass unchanged; a transaction already in a block is rejected as a replay
when its stored record has a truthy blockNumber, and otherwise (a re-mine)
is passed on with mempool set to false. -/
def checkAlreadyInBlock (db : OptimistDb) (tx : IncomingTx) :
    Except TransactionErr IncomingTx :=
  match db.blockOfTx tx.transactionHash with
  | none => .ok tx
  | some _ =>
    if jsTruthy (storedBlockNumber db tx.transactionHash) then
      .error ⟨"This transaction has been processed previously", 6⟩
    else
      .ok { tx with mempool := false }

/-- Observable side effects of the handler, in order: a saveTransaction
call (with the saved mempool flag) or a checkTransaction validation run. -/
inductive Effect where
  | save : Nat → Bool → Effect
  | validate : Nat → Effect
  deriving DecidableEq, Repr

/-- submitTransaction of the transaction handler.  checkTransaction lives
in transaction-checker.mjs outside the sampled sources, so it is passed in
as an argument; the function returns the ordered effect trace plus the
caught TransactionError, if any.  With fromBlockProposer set the
transaction is saved before it is validated; otherwise it is validated
first and saved only on success. -/
def submitTransaction (db : OptimistDb)
    (checkTx : IncomingTx → Except TransactionErr Unit)
    (tx : IncomingTx) (fromBlockProposer : Bool) :
    List Effect × Option TransactionErr :=
  match checkAlreadyInBlock db tx with
  | .error e => ([], some e)
  | .ok tr =>
    if fromBlockProposer then
      match checkTx tr with
      | .error e =>
        ([.save tr.transactionHash tr.mempool, .validate tr.transactionHash], some e)
      | .ok _ =>
        ([.save tr.transactionHash tr.mempool, .validate tr.transactionHash], none)
    else
      match checkTx tr with
      | .error e => ([.validate tr.transactionHash], some e)
      | .ok _ =>
        ([.validate tr.transactionHash, .save tr.transactionHash tr.mempool], none)

/-- A transaction posted to the offchain-transaction route: its circuit
hash, fee, and the remaining fields as an opaque payload. -/
structure OffchainTx where
  circuitHash : Nat
  fee : Nat
  payload : Nat
  deriving DecidableEq, Repr

/-- Outcome of the offchain-transaction route: HTTP status plus the event
handed to the queue, when any (the Bool is the offchain flag it carries). -/
structure RouteOutcome where
  status : Nat
  enqueued : Option (Bool × OffchainTx)
  deriving DecidableEq, Repr

/-- The offchain-transaction route of nightfall-optimist: it looks up the
circuit info of the transaction and answers 400 without enqueueing when the
circuit requires escrowed funds; otherwise it enqueues the transaction with
the offchain flag set and answers 200. -/
def offchainTransactionRoute (isEscrowRequired : Nat → Bool) (tx : OffchainTx) :
    RouteOutcome :=
  if isEscrowRequired tx.circuitHash then ⟨400, none⟩
  else ⟨200, some (true, tx)⟩

end Optimist

namespace TxClass

/-- The hex(32) normalisation applied by generalise: every numeric value is
reduced to a 32-byte word. -/
def hex32 (n : Nat) : Nat := n % 2 ^ 256

/-- Modelled from the spec: utils.padArray (common-files merkle-tree utils)
is not under the sampled sources; the spec states that absent slots are
zero-filled to the declared fixed arity before hashing, so the array is
extended with the padding element up to the requested length. -/
def padArray (a : List Nat) (pad : Nat) (n : Nat) : List Nat :=
  a ++ List.replicate (n - a.length) pad

/-- The literal eight-zero proof placeholder. -/
def zeros8 : List Nat := [0, 0, 0, 0, 0, 0, 0, 0]

/-- arrayEquality of transaction.mjs: equal length and every element of the
first contained in the second. -/
def arrayEquality (as bs : List Nat) : Bool :=
  as.length == bs.length && as.all (fun a => bs.contains a)

/-- The preimage record a Transaction instance consists of, all values
already hex(32)-normalised, plus the derived transactionHash field. -/
structure TxPreimage where
  value : Nat
  fee : Nat
  transactionType : Nat
  tokenType : Nat
  historicRootBlockNumberL2 : List Nat
  tokenId : Nat
  ercAddress : Nat
  recipientAddress : Nat
  commitments : List Nat
  nullifiers : List Nat
  compressedSecrets : List Nat
  proof : List Nat
  transactionHash : Nat
  deriving DecidableEq, Repr

/-- The keccak helper of transaction.mjs: an all-zero proof is replaced by
four zero words, any other proof is compressed, and the digest is taken
over the ABI encoding of the fields in the fixed source order.  The ABI
encoding plus keccak256 is the abstract H; compressProof (curve maths, not
under the sampled sources) is the abstract cp. -/
def keccakTx (H : List (List Nat) → Nat) (cp : List Nat → List Nat) (p : TxPreimage) : Nat :=
  let proof := if arrayEquality p.proof zeros8 then [0, 0, 0, 0] else cp p.proof
  H [[p.value], [p.fee], [p.transactionType], [p.tokenType], p.historicRootBlockNumberL2,
    [p.tokenId], [p.ercAddress], [p.recipientAddress], p.commitments, p.nullifiers,
    p.compressedSecrets, proof]

/-- Transaction.checkHash: recompute the digest from the fields of the
record and compare it with the stored transactionHash. -/
def checkHash (H : List (List Nat) → Nat) (cp : List Nat → List Nat) (t : TxPreimage) : Bool :=
  keccakTx H cp t == t.transactionHash

/-- The TOKEN_TYPES lookup table. -/
def TOKEN_TYPES : String → Option Nat
  | "ERC20" => some 0
  | "ERC721" => some 1
  | "ERC1155" => some 2
  | _ => none

/-- JavaScript x || 0 on an optional number. -/
def jsNumOr0 : Option Nat → Nat
  | none => 0
  | some n => n

/-- TOKEN_TYPES[tokenType] where tokenType itself may be absent. -/
def lookupTokenType : Option String → Option Nat
  | none => none
  | some s => TOKEN_TYPES s

/-- Arguments of the Transaction constructor; absent arguments are none.
Commitment and nullifier objects are represented by their hash values, the
proof argument stays an opaque type flattened by the caller-supplied
Proof.flatProof. -/
structure TxArgs (Pf : Type) where
  fee : Option Nat
  transactionType : Option Nat
  tokenType : Option String
  tokenId : Option Nat
  value : Option Nat
  ercAddress : Option Nat
  recipientAddress : Option Nat
  historicRootBlockNumberL2 : List Nat
  commitments : List Nat
  nullifiers : List Nat
  compressedSecrets : Option (List Nat)
  proof : Option Pf
  numberNullifiers : Nat
  numberCommitments : Nat

/-- The Transaction constructor: pads commitments, nullifiers and historic
roots to the declared arities, defaults the compressed secrets and the
proof, rejects an unrecognised token type for transaction types 0 and 2,
hex(32)-normalises every field and finally stores the recomputed keccak
digest in transactionHash. -/
def buildTransaction {Pf : Type} (flatP : Pf → List Nat)
    (H : List (List Nat) → Nat) (cp : List Nat → List Nat) (a : TxArgs Pf) :
    Except String TxPreimage :=
  let flatProof := match a.proof with
    | none => [0, 0, 0, 0, 0, 0, 0, 0]
    | some p => flatP p
  let commitments := padArray a.commitments 0 a.numberCommitments
  let nullifiers := padArray a.nullifiers 0 a.numberNullifiers
  let historicRootBlockNumberL2 := padArray a.historicRootBlockNumberL2 0 a.numberNullifiers
  let compressedSecrets := match a.compressedSecrets with
    | none => [0, 0]
    | some l => if l.length = 0 then [0, 0] else l
  if (a.transactionType = some 0 ∨ a.transactionType = some 2) ∧
      lookupTokenType a.tokenType = none then
    .error "Unrecognized token type"
  else
    let pre : TxPreimage :=
      { value := hex32 (jsNumOr0 a.value)
        fee := hex32 (jsNumOr0 a.fee)
        transactionType := hex32 (jsNumOr0 a.transactionType)
        tokenType := hex32 (jsNumOr0 (lookupTokenType a.tokenType))
        historicRootBlockNumberL2 := historicRootBlockNumberL2.map hex32
        tokenId := hex32 (jsNumOr0 a.tokenId)
        ercAddress := hex32 (jsNumOr0 a.ercAddress)
        recipientAddress := hex32 (jsNumOr0 a.recipientAddress)
        commitments := commitments.map hex32
        nullifiers := nullifiers.map hex32
        compressedSecrets := compressedSecrets.map hex32
        proof := flatProof.map hex32
        transactionHash := 0 }
    .ok { pre with transactionHash := keccakTx H cp pre }

/-- Modelled from the spec: transaction-checker.mjs (checkTransaction) is
not under the sampled sources; validation step (1) of the admission
pipeline recomputes and verifies the transaction hash and rejects on
mismatch rather than trusting the submitted value. -/
def verifyTransactionHash (H : List (List Nat) → Nat) (cp : List Nat → List Nat)
    (t : TxPreimage) : Except String Unit :=
  if checkHash H cp t then .ok () else .error "Transaction hash mismatch"

end TxClass

namespace ClientWithdraw

/-- Modelled from the spec: the commitment lifecycle states available,
pending and nullified, the latter carrying the back-reference to the
spending transaction. -/
inductive CStatus where
  | available : CStatus
  | pending : CStatus
  | nullified : Nat → CStatus
  deriving DecidableEq, Repr

/-- A stored commitment record with the fields the reserve predicate
matches on. -/
structure CommitmentRec where
  hash : Nat
  owner : Nat
  ercAddress : Nat
  tokenId : Nat
  value : Nat
  deriving DecidableEq, Repr

/-- The commitment store: the records plus a status per commitment hash. -/
structure CommitmentStore where
  commitments : List CommitmentRec
  status : Nat → CStatus

/-- Modelled from the spec: findUsableCommitmentsMutex of
commitment-storage.mjs is not under the sampled sources; reserve selects a
commitment matching the owner, asset and value predicate that is still
available, and marks it pending within the same critical section. -/
def findUsableCommitmentsMutex (store : CommitmentStore)
    (compressedPkd ercAddress tokenId value : Nat) :
    Option CommitmentRec × CommitmentStore :=
  match store.commitments.find? (fun c =>
      c.owner == compressedPkd && c.ercAddress == ercAddress &&
      c.tokenId == tokenId && c.value == value &&
      store.status c.hash == CStatus.available) with
  | none => (none, store)
  | some c =>
    (some c,
      { store with status := fun h => if h = c.hash then CStatus.pending else store.status h })

/-- Modelled from the spec: clearPending (release) returns a reserved
commitment to available. -/
def clearPending (store : CommitmentStore) (c : CommitmentRec) : CommitmentStore :=
  { store with status := fun h => if h = c.hash then CStatus.available else store.status h }

/-- Modelled from the spec: markNullified transitions the commitment to
nullified and records the spending transaction. -/
def markNullified (store : CommitmentStore) (c : CommitmentRec) (txHash : Nat) :
    CommitmentStore :=
  { store with status := fun h => if h = c.hash then CStatus.nullified txHash else store.status h }

/-- The predicate arguments of the withdraw flow. -/
structure WithdrawParams where
  compressedPkd : Nat
  ercAddress : Nat
  tokenId : Nat
  value : Nat
  deriving DecidableEq, Repr

/-- The withdraw flow of the sampled client service, as a function of the
outcomes of its awaited external calls.  After the commitment is reserved,
getSiblingInfo and getContractInstance run outside the try block; only the
ABI encoding of submitTransaction and markNullified are inside it, with
clearPending as the catch handler.  The result is the final store plus the
outcome. -/
def withdraw (store : CommitmentStore) (p : WithdrawParams)
    (siblingInfoOk contractOk encodeOk : Bool) (withdrawTxHash : Nat) :
    CommitmentStore × Except String Unit :=
  match findUsableCommitmentsMutex store p.compressedPkd p.ercAddress p.tokenId p.value with
  | (none, st1) => (st1, .error "No suitable commitments were found")
  | (some oldCommitment, st1) =>
    if siblingInfoOk = false then (st1, .error "getSiblingInfo failed")
    else if contractOk = false then (st1, .error "getContractInstance failed")
    else if encodeOk then (markNullified st1 oldCommitment withdrawTxHash, .ok ())
    else (clearPending st1 oldCommitment, .error "encodeABI failed")

end ClientWithdraw

namespace Fixtures

/-- Concrete environment used by the witnesses: tiny computable stand-ins
for the abstract digests. -/
def envW : StateContract.SolEnv :=
  { BLOCK_STAKE := 1
    TRANSACTIONS_PER_BLOCK := 2
    HT := fun tx => tx.fee + 5
    HB := fun b => b.blockNumberL2 + 9
    H2 := fun a b => a + b + 1
    escrowed := fun _ => true
    HFee := fun a b => a + b }

/-- Empty chain state. -/
def stW : StateContract.ChainState := { blockHashes := [], feeBook := [] }

/-- A genesis block proposal consistent with the empty chain state. -/
def bW : StateContract.SolBlock :=
  { leafCount := 0, proposer := 7, root := 0, blockNumberL2 := 0
    previousBlockHash := 0, transactionHashesRoot := 0 }

/-- The chain state after bW is accepted. -/
def stW' : StateContract.ChainState :=
  { blockHashes := [⟨9, 0⟩], feeBook := [(7, (0, 0))] }

/-- A deposit transaction the concrete escrow predicate rejects. -/
def depositTxW : StateContract.SolTx :=
  { value := 0, fee := 0, transactionType := 0, payload := [] }

/-- Environment whose escrow record is empty. -/
def envNoEscrowW : StateContract.SolEnv :=
  { envW with escrowed := fun _ => false }

/-- Proposer rotation state with a two-element circular list 1 <-> 2,
proposer 1 current. -/
def stPW : StateContract.ProposerState :=
  { proposers := fun a =>
      if a = 1 then ⟨1, 2, 2, ""⟩
      else if a = 2 then ⟨2, 1, 1, ""⟩
      else StateContract.zeroLinked
    currentProposer := ⟨1, 2, 2, ""⟩
    proposerStartBlock := 0 }

/-- Database with one transaction (hash 5) in block 3, stored with a truthy
blockNumber, and nothing else. -/
def dbW : Optimist.OptimistDb :=
  { blockOfTx := fun h => if h = 5 then some 3 else none
    storedTx := fun h => if h = 5 then some ⟨.num 12⟩ else none }

/-- Database where transaction hash 5 is in block 3 but the stored record
has no blockNumber (a re-mine). -/
def dbRemineW : Optimist.OptimistDb :=
  { blockOfTx := fun h => if h = 5 then some 3 else none
    storedTx := fun h => if h = 5 then some ⟨.undef⟩ else none }

/-- An incoming copy of the stored transaction. -/
def txW : Optimist.IncomingTx := { transactionHash := 5, mempool := true, payload := 0 }

/-- A fresh incoming transaction unknown to the database. -/
def txFreshW : Optimist.IncomingTx := { transactionHash := 6, mempool := true, payload := 0 }

/-- A validator that rejects everything. -/
def checkTxFailW : Optimist.IncomingTx → Except Optimist.TransactionErr Unit :=
  fun _ => .error ⟨"bad", 1⟩

/-- Concrete stand-in for the ABI-encode plus keccak digest. -/
def keccakW : List (List Nat) → Nat := fun _ => 42

/-- Concrete stand-in for compressProof as a list transformer. -/
def cpW : List Nat → List Nat := fun l => l.take 4

/-- Concrete stand-in for Proof.flatProof. -/
def flatPW : List Nat → List Nat := fun l => l

/-- Constructor arguments with every optional field absent: one commitment
slot, two nullifier slots. -/
def argsW : TxClass.TxArgs (List Nat) :=
  { fee := none, transactionType := none, tokenType := none, tokenId := none
    value := none, ercAddress := none, recipientAddress := none
    historicRootBlockNumberL2 := [], commitments := [], nullifiers := []
    compressedSecrets := none, proof := none
    numberNullifiers := 2, numberCommitments := 1 }

/-- The record the constructor builds from argsW under keccakW. -/
def prW : TxClass.TxPreimage :=
  { value := 0, fee := 0, transactionType := 0, tokenType := 0
    historicRootBlockNumberL2 := [0, 0], tokenId := 0, ercAddress := 0
    recipientAddress := 0, commitments := [0], nullifiers := [0, 0]
    compressedSecrets := [0, 0], proof := [0, 0, 0, 0, 0, 0, 0, 0]
    transactionHash := 42 }

/-- A record whose submitted transactionHash does not match the digest. -/
def prBadW : TxClass.TxPreimage :=
  { prW with transactionHash := 41 }

/-- One available commitment with hash 10 owned by 1 over asset 2, token 3,
value 4. -/
def storeW : ClientWithdraw.CommitmentStore :=
  { commitments := [⟨10, 1, 2, 3, 4⟩], status := fun _ => .available }

/-- Withdraw parameters matching that commitment. -/
def pW : ClientWithdraw.WithdrawParams := ⟨1, 2, 3, 4⟩

end Fixtures

namespace StateContract

theorem getTreeHeightFrom_le (leaves : Nat) :
    ∀ fuel h, h ≤ getTreeHeightFrom leaves fuel h := by
  intro fuel
  induction fuel with
  | zero => intro h; simp [getTreeHeightFrom]
  | succ n ih =>
    intro h
    simp only [getTreeHeightFrom]
    split
    · exact Nat.le_trans (Nat.le_succ h) (ih (h + 1))
    · exact Nat.le_refl h

theorem getTreeHeightFrom_spec (leaves : Nat) :
    ∀ fuel h, leaves ≤ 2 ^ (h + fuel) → leaves ≤ 2 ^ getTreeHeightFrom leaves fuel h := by
  intro fuel
  induction fuel with
  | zero => intro h hf; simpa [getTreeHeightFrom] using hf
  | succ n ih =>
    intro h hf
    simp only [getTreeHeightFrom]
    split
    · refine ih (h + 1) ?_
      have he : h + 1 + n = h + (n + 1) := by omega
      rw [he]
      exact hf
    · exact Nat.le_of_not_lt (by assumption)

theorem getTreeHeightFrom_min (leaves : Nat) :
    ∀ fuel h h2, h ≤ h2 → leaves ≤ 2 ^ h2 → getTreeHeightFrom leaves fuel h ≤ h2 := by
  intro fuel
  induction fuel with
  | zero => intro h h2 hle _; simpa [getTreeHeightFrom] using hle
  | succ n ih =>
    intro h h2 hle hh
    simp only [getTreeHeightFrom]
    split
    · have hlt : (2 : Nat) ^ h < 2 ^ h2 := Nat.lt_of_lt_of_le (by assumption) hh
      have hhlt : h < h2 := by
        by_contra hcon
        exact absurd (Nat.pow_le_pow_right (by omega) (Nat.le_of_not_lt hcon)) (Nat.not_le_of_lt hlt)
      exact ih (h + 1) h2 hhlt hh
    · exact hle

theorem getTreeHeight_pos (n : Nat) : 1 ≤ getTreeHeight n :=
  getTreeHeightFrom_le n n 1

theorem getTreeHeight_ge (n : Nat) : n ≤ 2 ^ getTreeHeight n := by
  apply getTreeHeightFrom_spec
  have h1 : n < 2 ^ n := Nat.lt_two_pow n
  have h2 : (2 : Nat) ^ n ≤ 2 ^ (1 + n) := Nat.pow_le_pow_right (by omega) (by omega)
  omega

theorem getTreeHeight_min (n h : Nat) (h1 : 1 ≤ h) (h2 : n ≤ 2 ^ h) :
    getTreeHeight n ≤ h :=
  getTreeHeightFrom_min n n 1 h h1 h2

theorem levelUp_zero_pair (H2 : Nat → Nat → Nat) (rest : List Nat) :
    levelUp H2 (0 :: 0 :: rest) = 0 :: levelUp H2 rest := by
  simp [levelUp]

theorem levelUp_hash_pair (H2 : Nat → Nat → Nat) (a b : Nat) (rest : List Nat)
    (h : ¬(a = 0 ∧ b = 0)) :
    levelUp H2 (a :: b :: rest) = H2 a b :: levelUp H2 rest := by
  simp [levelUp, h]

theorem txLeaves_length (HT : SolTx → Nat) (t : List SolTx) :
    (txLeaves HT t).length = 2 ^ getTreeHeight t.length := by
  have h := getTreeHeight_ge t.length
  simp [txLeaves]
  omega

theorem txLeaves_pad (HT : SolTx → Nat) (t : List SolTx) (i : Nat)
    (h1 : t.length ≤ i) (h2 : i < 2 ^ getTreeHeight t.length) :
    (txLeaves HT t).getD i 1 = 0 := by
  unfold txLeaves
  rw [List.getD_append_right _ _ _ _ (by simpa using h1)]
  have hlen : i - (t.map HT).length < (List.replicate (2 ^ getTreeHeight t.length - t.length) (0 : Nat)).length := by
    simp
    omega
  rw [List.getD_eq_getElem _ _ hlen, List.getElem_replicate]

theorem proposeBlock_eq_ok (env : SolEnv) (cp : Nat) (st : ChainState)
    (sender msgValue time : Nat) (b : SolBlock) (t : List SolTx) (st' : ChainState) :
    proposeBlock env cp st sender msgValue time b t = .ok st' ↔
      sender = cp ∧
      b.blockNumberL2 = st.blockHashes.length ∧
      ¬(st.blockHashes ≠ [] ∧ b.previousBlockHash ≠ lastStoredHash st.blockHashes) ∧
      ¬(msgValue < env.BLOCK_STAKE) ∧
      b.proposer = sender ∧
      ¬(env.TRANSACTIONS_PER_BLOCK < t.length) ∧
      t.any (fun tx => tx.transactionType == 0 && !env.escrowed (env.HT tx)) = false ∧
      b.transactionHashesRoot = calcTransactionsRoot env.H2 env.HT t ∧
      st' = { blockHashes := st.blockHashes ++ [⟨env.HB b, time⟩]
              feeBook := st.feeBook ++ [(env.HFee b.proposer b.blockNumberL2, feePayments t)] } := by
  unfold proposeBlock
  split_ifs with h1 h2 h3 h4 h5 h6 h7 h8 <;> constructor <;> intro hx <;> simp_all

theorem proposeBlock_not_ok (env : SolEnv) (cp : Nat) (st : ChainState)
    (sender msgValue time : Nat) (b : SolBlock) (t : List SolTx)
    (h : ∀ st', proposeBlock env cp st sender msgValue time b t = .ok st' → False) :
    isOkE (proposeBlock env cp st sender msgValue time b t) = false := by
  cases heq : proposeBlock env cp st sender msgValue time b t with
  | error e => rfl
  | ok st' => exact (h st' heq).elim

theorem chainLinked_append (HB : SolBlock → Nat) (accepted : List SolBlock) (b : SolBlock)
    (hchain : chainLinked HB accepted)
    (hnum : b.blockNumberL2 = accepted.length)
    (hprev : 0 < accepted.length →
      b.previousBlockHash = HB (accepted.getD (accepted.length - 1) sbDefault)) :
    chainLinked HB (accepted ++ [b]) := by
  intro i hi
  rw [List.length_append, List.length_singleton] at hi
  by_cases hilt : i < accepted.length
  · have h1 := hchain i hilt
    refine ⟨?_, ?_⟩
    · rw [List.getD_append _ _ _ _ hilt]
      exact h1.1
    · intro hpos
      rw [List.getD_append _ _ _ _ hilt, List.getD_append _ _ _ _ (by omega)]
      exact h1.2 hpos
  · have hieq : i = accepted.length := by omega
    subst hieq
    refine ⟨?_, ?_⟩
    · rw [List.getD_append_right _ _ _ _ (Nat.le_refl _)]
      simpa using hnum
    · intro hpos
      rw [List.getD_append_right _ _ _ _ (Nat.le_refl _),
        List.getD_append _ _ _ _ (by omega)]
      simpa using hprev hpos

/-- C1: proposeBlock reverts when the submitted blockNumberL2 differs from
the count of stored L2 blocks, when (with at least one block stored) the
submitted previousBlockHash differs from the digest of the last stored
block, when the transaction list exceeds TRANSACTIONS_PER_BLOCK, or when
the stake paid is below BLOCK_STAKE; and every successful call appends
exactly one block-hash entry, so the accepted blocks stay numbered
sequentially with no gaps and each block links to the digest of its
predecessor. -/
theorem proposeBlock_admission_and_chain
    (env : SolEnv) (cp : Nat) (st : ChainState) (sender msgValue time : Nat)
    (b : SolBlock) (t : List SolTx) (accepted : List SolBlock)
    (hmatch : hashesMatch env.HB st.blockHashes accepted)
    (hchain : chainLinked env.HB accepted) :
    (b.blockNumberL2 ≠ st.blockHashes.length →
      isOkE (proposeBlock env cp st sender msgValue time b t) = false) ∧
    (st.blockHashes ≠ [] → b.previousBlockHash ≠ lastStoredHash st.blockHashes →
      isOkE (proposeBlock env cp st sender msgValue time b t) = false) ∧
    (env.TRANSACTIONS_PER_BLOCK < t.length →
      isOkE (proposeBlock env cp st sender msgValue time b t) = false) ∧
    (msgValue < env.BLOCK_STAKE →
      isOkE (proposeBlock env cp st sender msgValue time b t) = false) ∧
    ∀ st', proposeBlock env cp st sender msgValue time b t = .ok st' →
      st'.blockHashes = st.blockHashes ++ [⟨env.HB b, time⟩] ∧
      hashesMatch env.HB st'.blockHashes (accepted ++ [b]) ∧
      chainLinked env.HB (accepted ++ [b]) := by
  refine ⟨?_, ?_, ?_, ?_, ?_⟩
  · intro hbad
    apply proposeBlock_not_ok
    intro st' hst
    rw [proposeBlock_eq_ok] at hst
    exact hbad hst.2.1
  · intro hne hbad
    apply proposeBlock_not_ok
    intro st' hst
    rw [proposeBlock_eq_ok] at hst
    exact hst.2.2.1 ⟨hne, hbad⟩
  · intro hbad
    apply proposeBlock_not_ok
    intro st' hst
    rw [proposeBlock_eq_ok] at hst
    exact hst.2.2.2.2.2.1 hbad
  · intro hbad
    apply proposeBlock_not_ok
    intro st' hst
    rw [proposeBlock_eq_ok] at hst
    exact hst.2.2.2.1 hbad
  · intro st' hst
    rw [proposeBlock_eq_ok] at hst
    obtain ⟨h1, h2, h3, h4, h5, h6, h7, h8, h9⟩ := hst
    subst h9
    have hlen := hmatch.1
    refine ⟨rfl, ⟨?_, ?_⟩, ?_⟩
    · simp [hlen]
    · intro i hi
      simp only [List.length_append, List.length_singleton] at hi
      by_cases hilt : i < st.blockHashes.length
    
      · rw [List.getD_append _ _ _ _ hilt, List.getD_append _ _ _ _ (by omega)]
        exact hmatch.2 i hilt
      · have hieq : i = st.blockHashes.length := by omega
        subst hieq
        rw [List.getD_append_right _ _ _ _ (Nat.le_refl _),
          List.getD_append_right _ _ _ _ (by omega)]
        have hz : st.blockHashes.length - accepted.length = 0 := by omega
        simp [hz]
    · apply chainLinked_append env.HB accepted b hchain
      · rw [h2, hlen]
      · intro hpos
        have hne : st.blockHashes ≠ [] := by
          intro hcon
          rw [hcon] at hlen
          simp at hlen
          omega
        have h3' : b.previousBlockHash = lastStoredHash st.blockHashes := by tauto
        rw [h3', lastStoredHash]
        have hidx : st.blockHashes.length - 1 < st.blockHashes.length := by
          have : 0 < st.blockHashes.length := by omega
          omega
        rw [hmatch.2 _ hidx, hlen]

/-- C3: whenever proposeBlock succeeds, the transactions-hash-tree root
recomputed from the submitted transaction list equals the
transactionHashesRoot field stored in the block (a mismatch reverts), and
the stored entry is the digest of the block structure alone, a function of
the block metadata including that root and never of the transaction
bodies. -/
theorem proposeBlock_root_and_blockHash
    (env : SolEnv) (cp : Nat) (st : ChainState) (sender msgValue time : Nat)
    (b : SolBlock) (t : List SolTx) (st' : ChainState)
    (h : proposeBlock env cp st sender msgValue time b t = .ok st') :
    b.transactionHashesRoot = calcTransactionsRoot env.H2 env.HT t ∧
    st'.blockHashes = st.blockHashes ++ [⟨env.HB b, time⟩] := by
  rw [proposeBlock_eq_ok] at h
  refine ⟨h.2.2.2.2.2.2.2.1, ?_⟩
  rw [h.2.2.2.2.2.2.2.2]

/-- C6: a block containing a deposit-type transaction whose funds are not
recorded as escrowed can never be accepted by proposeBlock, and the
offchain-transaction route answers 400 without enqueueing anything for a
transaction whose circuit requires escrow, so an offchain-originated
deposit is never admitted. -/
theorem deposit_escrow_enforced
    (env : SolEnv) (cp : Nat) (st : ChainState) (sender msgValue time : Nat)
    (b : SolBlock) (t : List SolTx) (tx : SolTx)
    (hmem : tx ∈ t) (htype : tx.transactionType = 0)
    (hesc : env.escrowed (env.HT tx) = false) :
    isOkE (proposeBlock env cp st sender msgValue time b t) = false ∧
    ∀ (isEscrowRequired : Nat → Bool) (otx : Optimist.OffchainTx),
      isEscrowRequired otx.circuitHash = true →
      Optimist.offchainTransactionRoute isEscrowRequired otx = ⟨400, none⟩ := by
  refine ⟨?_, ?_⟩
  · apply proposeBlock_not_ok
    intro st' hst
    rw [proposeBlock_eq_ok] at hst
    have hany : t.any (fun tx => tx.transactionType == 0 && !env.escrowed (env.HT tx)) = true :=
      List.any_eq_true.mpr ⟨tx, hmem, by simp [htype, hesc]⟩
    rw [hst.2.2.2.2.2.2.1] at hany
    exact Bool.false_ne_true hany
  · intro isEscrowRequired otx hreq
    simp [Optimist.offchainTransactionRoute, hreq]

/-- C8: the transactions-hash tree built inside proposeBlock has exactly
2 ^ h leaf slots for h the least height of at least 1 with 2 ^ h greater
than or equal to the transaction count, leaf slots past the transaction
count are zero, and at every level a node whose two children are both zero
is written as the zero constant directly instead of as the hash of two
zero children. -/
theorem transactions_tree_shape
    (n : Nat) (HT : SolTx → Nat) (H2 : Nat → Nat → Nat) (t : List SolTx) :
    (1 ≤ getTreeHeight n ∧ n ≤ 2 ^ getTreeHeight n ∧
      ∀ h, 1 ≤ h → n ≤ 2 ^ h → getTreeHeight n ≤ h) ∧
    ((txLeaves HT t).length = 2 ^ getTreeHeight t.length ∧
      ∀ i, t.length ≤ i → i < 2 ^ getTreeHeight t.length → (txLeaves HT t).getD i 1 = 0) ∧
    (∀ rest, levelUp H2 (0 :: 0 :: rest) = 0 :: levelUp H2 rest) ∧
    (∀ a b rest, ¬(a = 0 ∧ b = 0) → levelUp H2 (a :: b :: rest) = H2 a b :: levelUp H2 rest) ∧
    calcTransactionsRoot H2 HT t =
      ((levelUp H2)^[getTreeHeight t.length] (txLeaves HT t)).headD 0 := by
  refine ⟨⟨getTreeHeight_pos n, getTreeHeight_ge n, getTreeHeight_min n⟩,
    ⟨txLeaves_length HT t, txLeaves_pad HT t⟩,
    levelUp_zero_pair H2, levelUp_hash_pair H2, rfl⟩

end StateContract

namespace StateContract

/-- C9: removeProposer is permitted even when the removed proposer is the
current one; it deletes the record, rewires the previous and next
neighbours to point at each other, and makes the next live proposer the
single current proposer. -/
theorem removeProposer_rewires_and_advances
    (bn : Nat) (st : ProposerState) (proposer : Nat)
    (hthisP : (st.proposers (st.proposers proposer).previousAddress).thisAddress =
      (st.proposers proposer).previousAddress)
    (hthisN : (st.proposers (st.proposers proposer).nextAddress).thisAddress =
      (st.proposers proposer).nextAddress)
    (hprevNe : (st.proposers proposer).previousAddress ≠ proposer)
    (hnextNe : (st.proposers proposer).nextAddress ≠ proposer) :
    isOkE (removeProposer true bn st proposer) = true ∧
    ∀ st', removeProposer true bn st proposer = .ok st' →
      st'.proposers proposer = zeroLinked ∧
      (st'.proposers (st.proposers proposer).previousAddress).nextAddress =
        (st.proposers proposer).nextAddress ∧
      (st'.proposers (st.proposers proposer).nextAddress).previousAddress =
        (st.proposers proposer).previousAddress ∧
      st'.currentProposer = st'.proposers (st.proposers proposer).nextAddress ∧
      st'.currentProposer.thisAddress = (st.proposers proposer).nextAddress := by
  constructor
  · rfl
  · intro st' hst
    unfold removeProposer at hst
    rw [if_neg (by simp)] at hst
    rw [Except.ok.injEq] at hst
    subst hst
    have hpne : proposer ≠ (st.proposers proposer).previousAddress := fun h => hprevNe h.symm
    have hnne : proposer ≠ (st.proposers proposer).nextAddress := fun h => hnextNe h.symm
    by_cases hpn : (st.proposers proposer).previousAddress = (st.proposers proposer).nextAddress
    · rw [hpn]
      refine ⟨?_, ?_, ?_, rfl, ?_⟩
      · simp [updateMap, hpne, hnne]
      · simp [updateMap, hnextNe, hthisN]
      · simp [updateMap, hnextNe, hthisN]
      · simp [updateMap, hnextNe, hthisN]
    · have hnp : (st.proposers proposer).nextAddress ≠ (st.proposers proposer).previousAddress :=
        fun h => hpn h.symm
      refine ⟨?_, ?_, ?_, rfl, ?_⟩
      · simp [updateMap, hpne, hnne]
      · simp [updateMap, hpn, hprevNe, hnextNe, hthisN]
      · simp [updateMap, hpn, hprevNe, hnextNe, hthisP]
      · simp [updateMap, hnp, hprevNe, hnextNe, hthisN]

end StateContract

namespace Optimist

/-- C2: a transaction that already appears in a stored block whose stored
record carries a (truthy) block number is rejected as a replay and ignored
(nothing is saved or validated); one that appears in a stored block without
a block number (a re-mine) continues with its mempool flag forced to false,
so every copy the handler ever saves has mempool false; one that appears in
no stored block is passed on unchanged. -/
theorem admission_replay_and_remine (db : OptimistDb) (tx : IncomingTx) :
    (db.blockOfTx tx.transactionHash = none → checkAlreadyInBlock db tx = .ok tx) ∧
    ∀ bn, db.blockOfTx tx.transactionHash = some bn →
      (jsTruthy (storedBlockNumber db tx.transactionHash) = true →
        checkAlreadyInBlock db tx =
          .error ⟨"This transaction has been processed previously", 6⟩ ∧
        ∀ checkTx fbp,
          submitTransaction db checkTx tx fbp =
            ([], some ⟨"This transaction has been processed previously", 6⟩)) ∧
      (jsTruthy (storedBlockNumber db tx.transactionHash) = false →
        checkAlreadyInBlock db tx = .ok { tx with mempool := false } ∧
        ∀ checkTx fbp h m,
          Effect.save h m ∈ (submitTransaction db checkTx tx fbp).1 → m = false) := by
  refine ⟨?_, ?_⟩
  · intro h
    simp [checkAlreadyInBlock, h]
  · intro bn hbn
    constructor
    · intro htr
      have hc : checkAlreadyInBlock db tx =
          .error ⟨"This transaction has been processed previously", 6⟩ := by
        simp [checkAlreadyInBlock, hbn, htr]
      exact ⟨hc, fun checkTx fbp => by simp [submitTransaction, hc]⟩
    · intro htr
      have hc : checkAlreadyInBlock db tx = .ok { tx with mempool := false } := by
        simp [checkAlreadyInBlock, hbn, htr]
      refine ⟨hc, ?_⟩
      intro checkTx fbp h m hmem
      cases fbp <;>
        cases hck : checkTx { tx with mempool := false } <;>
          simp [submitTransaction, hc, hck] at hmem <;>
            simp_all

/-- C5: with the fromBlockProposer flag (a transaction the anchor chain has
already committed in a proposed block), the handler persists the
transaction before validating it, and the save effect stays even when
validation rejects; without the flag (an offchain submission), validation
runs first and the transaction is persisted only when validation succeeds,
so a rejected offchain transaction is never persisted. -/
theorem submitTransaction_persist_order
    (db : OptimistDb) (checkTx : IncomingTx → Except TransactionErr Unit)
    (tx tr : IncomingTx) (hok : checkAlreadyInBlock db tx = .ok tr) :
    (∀ e, checkTx tr = .error e →
      submitTransaction db checkTx tx true =
        ([.save tr.transactionHash tr.mempool, .validate tr.transactionHash], some e) ∧
      submitTransaction db checkTx tx false =
        ([.validate tr.transactionHash], some e)) ∧
    (checkTx tr = .ok () →
      submitTransaction db checkTx tx true =
        ([.save tr.transactionHash tr.mempool, .validate tr.transactionHash], none) ∧
      submitTransaction db checkTx tx false =
        ([.validate tr.transactionHash, .save tr.transactionHash tr.mempool], none)) := by
  constructor
  · intro e he
    exact ⟨by simp [submitTransaction, hok, he], by simp [submitTransaction, hok, he]⟩
  · intro hsucc
    exact ⟨by simp [submitTransaction, hok, hsucc], by simp [submitTransaction, hok, hsucc]⟩

end Optimist

namespace TxClass

/-- C4: the transaction digest is taken over the fixed-order tuple (value,
fee, transactionType, tokenType, historicRootBlockNumberL2, tokenId,
ercAddress, recipientAddress, commitments, nullifiers, compressedSecrets,
proof); the constructor zero-pads the commitment, nullifier and
historic-root slots to the declared arities before hashing; checkHash
recomputes the digest from the submitted fields and compares it with the
submitted transactionHash; and the admission check rejects on mismatch
instead of trusting the submitted value. -/
theorem transaction_hash_fixed_order (H : List (List Nat) → Nat) (cp : List Nat → List Nat) :
    (∀ p : TxPreimage, keccakTx H cp p =
      H [[p.value], [p.fee], [p.transactionType], [p.tokenType], p.historicRootBlockNumberL2,
        [p.tokenId], [p.ercAddress], [p.recipientAddress], p.commitments, p.nullifiers,
        p.compressedSecrets,
        if arrayEquality p.proof zeros8 then [0, 0, 0, 0] else cp p.proof]) ∧
    (∀ p : TxPreimage, checkHash H cp p = true ↔ keccakTx H cp p = p.transactionHash) ∧
    (∀ (Pf : Type) (flatP : Pf → List Nat) (a : TxArgs Pf) (pr : TxPreimage),
      buildTransaction flatP H cp a = .ok pr →
      pr.commitments = (padArray a.commitments 0 a.numberCommitments).map hex32 ∧
      pr.nullifiers = (padArray a.nullifiers 0 a.numberNullifiers).map hex32 ∧
      pr.historicRootBlockNumberL2 =
        (padArray a.historicRootBlockNumberL2 0 a.numberNullifiers).map hex32) ∧
    ∀ p : TxPreimage, checkHash H cp p = false →
      verifyTransactionHash H cp p = .error "Transaction hash mismatch" := by
  refine ⟨fun p => rfl, fun p => ?_, ?_, ?_⟩
  · simp [checkHash]
  · intro Pf flatP a pr h
    simp only [buildTransaction] at h
    by_cases hcond : (a.transactionType = some 0 ∨ a.transactionType = some 2) ∧
        lookupTokenType a.tokenType = none
    · rw [if_pos hcond] at h
      exact absurd h (by simp)
    · rw [if_neg hcond] at h
      rw [Except.ok.injEq] at h
      subst h
      exact ⟨rfl, rfl, rfl⟩
  · intro p hfalse
    simp [verifyTransactionHash, hfalse]

/-- C10: whenever the Transaction constructor returns without throwing, the
returned record passes checkHash: its transactionHash equals the digest
recomputed from its own padded and normalised fields. -/
theorem buildTransaction_checkHash {Pf : Type} (flatP : Pf → List Nat)
    (H : List (List Nat) → Nat) (cp : List Nat → List Nat)
    (a : TxArgs Pf) (pr : TxPreimage)
    (h : buildTransaction flatP H cp a = .ok pr) : checkHash H cp pr = true := by
  simp only [buildTransaction] at h
  by_cases hcond : (a.transactionType = some 0 ∨ a.transactionType = some 2) ∧
      lookupTokenType a.tokenType = none
  · rw [if_pos hcond] at h
    exact absurd h (by simp)
  · rw [if_neg hcond] at h
    rw [Except.ok.injEq] at h
    subst h
    simp [checkHash, keccakTx]

end TxClass

/-- C7: evidence against the claim that every failure after the commitment
reservation releases it.  With one matching available commitment (hash 10),
a withdraw run whose awaited getSiblingInfo call rejects after the
reservation propagates the error without calling clearPending: the
commitment stays pending and a subsequent reserve with the same predicate
cannot return it. -/
theorem withdraw_stranded_pending :
    (ClientWithdraw.withdraw Fixtures.storeW Fixtures.pW false true true 99).2 =
      .error "getSiblingInfo failed" ∧
    (ClientWithdraw.withdraw Fixtures.storeW Fixtures.pW false true true 99).1.status 10 =
      ClientWithdraw.CStatus.pending ∧
    (ClientWithdraw.findUsableCommitmentsMutex
      (ClientWithdraw.withdraw Fixtures.storeW Fixtures.pW false true true 99).1 1 2 3 4).1 =
      none :=
  ⟨rfl, rfl, rfl⟩

/-- Witness for C1 at a concrete genesis proposal. -/
theorem proposeBlock_admission_and_chain_witness :
    StateContract.chainLinked Fixtures.envW.HB ([] ++ [Fixtures.bW]) ∧
    Fixtures.stW'.blockHashes =
      Fixtures.stW.blockHashes ++ [⟨Fixtures.envW.HB Fixtures.bW, 0⟩] := by
  have h := StateContract.proposeBlock_admission_and_chain Fixtures.envW 7 Fixtures.stW 7 1 0
    Fixtures.bW [] [] ⟨rfl, fun i hi => absurd hi (Nat.not_lt_zero i)⟩
    (fun i hi => absurd hi (Nat.not_lt_zero i))
  have h2 := h.2.2.2.2 Fixtures.stW' (by rfl)
  exact ⟨h2.2.2, h2.1⟩

/-- Witness for C2 at a concrete database holding the transaction in a
finalised block. -/
theorem admission_replay_witness :
    Optimist.checkAlreadyInBlock Fixtures.dbW Fixtures.txW =
      .error ⟨"This transaction has been processed previously", 6⟩ :=
  (((Optimist.admission_replay_and_remine Fixtures.dbW Fixtures.txW).2 3 rfl).1 rfl).1

/-- Witness for C3 at the concrete genesis proposal. -/
theorem proposeBlock_root_witness :
    Fixtures.bW.transactionHashesRoot =
      StateContract.calcTransactionsRoot Fixtures.envW.H2 Fixtures.envW.HT [] :=
  (StateContract.proposeBlock_root_and_blockHash Fixtures.envW 7 Fixtures.stW 7 1 0 Fixtures.bW
    [] Fixtures.stW' (by rfl)).1

/-- Witness for C4 at a record whose submitted hash is wrong. -/
theorem transaction_hash_check_witness :
    TxClass.verifyTransactionHash Fixtures.keccakW Fixtures.cpW Fixtures.prBadW =
      .error "Transaction hash mismatch" :=
  (TxClass.transaction_hash_fixed_order Fixtures.keccakW Fixtures.cpW).2.2.2 Fixtures.prBadW
    (by rfl)

/-- Witness for C5: a rejected offchain submission is never persisted. -/
theorem submit_order_witness :
    Optimist.submitTransaction Fixtures.dbRemineW Fixtures.checkTxFailW Fixtures.txW false =
      ([.validate 5], some ⟨"bad", 1⟩) := by
  have h := Optimist.submitTransaction_persist_order Fixtures.dbRemineW Fixtures.checkTxFailW
    Fixtures.txW { Fixtures.txW with mempool := false } (by rfl)
  exact (h.1 ⟨"bad", 1⟩ rfl).2

/-- Witness for C6 at a one-deposit block with an empty escrow record. -/
theorem deposit_escrow_witness :
    isOkE (StateContract.proposeBlock Fixtures.envNoEscrowW 7 Fixtures.stW 7 1 0 Fixtures.bW
      [Fixtures.depositTxW]) = false :=
  (StateContract.deposit_escrow_enforced Fixtures.envNoEscrowW 7 Fixtures.stW 7 1 0 Fixtures.bW
    [Fixtures.depositTxW] Fixtures.depositTxW (by simp) rfl rfl).1

/-- Witness for C8 at three transactions. -/
theorem tree_shape_witness : 1 ≤ StateContract.getTreeHeight 3 :=
  (StateContract.transactions_tree_shape 3 Fixtures.envW.HT Fixtures.envW.H2
    [Fixtures.depositTxW]).1.1

/-- Witness for C9: removing the current proposer of a two-element rotation
succeeds. -/
theorem removeProposer_witness :
    isOkE (StateContract.removeProposer true 5 Fixtures.stPW 1) = true :=
  (StateContract.removeProposer_rewires_and_advances 5 Fixtures.stPW 1 rfl rfl (by decide)
    (by decide)).1

/-- Witness for C10 at concrete constructor arguments. -/
theorem build_checkHash_witness :
    TxClass.checkHash Fixtures.keccakW Fixtures.cpW Fixtures.prW = true :=
  TxClass.buildTransaction_checkHash Fixtures.flatPW Fixtures.keccakW Fixtures.cpW Fixtures.argsW
    Fixtures.prW (by rfl)
